import Mathlib

/-!
Shallow embedding of the strided axis-reduction kernel
`DimensionOps::rrOp` and its operator set `rrSum`, `rrProd`, `rrMax`,
`rrMin`, `rrVar` from `src/native/src/shared/DimensionOps_reduce.cpp`.

Modelling conventions:
* `jdouble` values are modelled as exact rationals `ℚ` (ideal real
  arithmetic; the C++ accumulates in a fixed sequential order, which the
  embedding reproduces).
* `jint` is modelled as unbounded `Int`; loop counters over array
  positions are `Nat`.
* A Java array reference that may be `null` is an `Option`; `none`
  models a `null` argument.
* The external helpers `MappingOps::checkDimensions`,
  `MappingOps::assignMappingIndices` and
  `DimensionOps::assignBaseIndices` are declared in headers outside the
  sources at hand; `checkDimensions` is kept abstract as a function
  parameter `cd`, the other two are modelled from the spec (see
  `mappingIndices`).
* Scratch allocation (`MallocHandler`) always succeeds in the model, so
  the `AllocationFailure` path is not represented.
-/

namespace DimensionOps

/-- Reduction operator kinds, mirroring the five recognized cases of the
`switch (type)` dispatch in `DimensionOps::rrOp`.  The integral tag
constants (`shared_array_kernel_ArrayKernel_RR_*`) live in a generated
JNI header outside the sources at hand, so the caller's tag is modelled
as `Option RrOpKind`, with `none` standing for an unrecognized integral
value (the `default:` branch). -/
inductive RrOpKind where
  | sum
  | prod
  | max
  | min
  | var
deriving DecidableEq, Repr

/-- Error classes of `DimensionOps::rrOp`, one per `throw` site (plus
`invalidLayout` for a failure inside the external
`MappingOps::checkDimensions`).  The C++ reports each as a
`std::runtime_error` with a message; note that the shape-mismatch site
and the missing-argument / dimension-disagreement sites share the
message string `"Invalid arguments"`. -/
inductive RrError where
  | unknownOperator
  | invalidArguments
  | invalidLayout
  | duplicateAxis
  | axisOutOfRange
  | nonSingletonReducedAxis
  | shapeMismatch
deriving DecidableEq, Repr

/-- Read `buffer[i]` for an `Int` offset: out-of-range or negative reads
return a default `0` (the C++ would be undefined behavior there; every
claim below only evaluates in-bounds reads). -/
def getQ (l : List ℚ) (i : Int) : ℚ :=
  if 0 ≤ i then l.getD i.toNat 0 else 0

/-- Write `buffer[i] := v` for an `Int` offset: out-of-range or negative
writes are dropped (C++ undefined behavior; unreachable in the claims
below). -/
def setQ (l : List ℚ) (i : Int) (v : ℚ) : List ℚ :=
  if 0 ≤ i then l.set i.toNat v else l

/-- Read an `Int` entry of a `jint` array at an `Int` offset. -/
def getI (l : List Int) (i : Int) : Int :=
  if 0 ≤ i then l.getD i.toNat 0 else 0

/-- Product of a shape, as a count of coordinates. -/
def prodNat (l : List Int) : Nat :=
  (l.map Int.toNat).prod

/-- Modelled from the spec: `MappingOps::assignMappingIndices` (§4.2,
Coordinate Enumerator), whose definition is outside the sources at
hand.  Given a shape and a strides array it lists the linear offset
`Σ cₖ·strideₖ` of every coordinate tuple, in canonical row-major order
(axis 0 slowest, last axis fastest); a zero-length dimension yields the
empty sequence and `ndims = 0` yields the single offset `0`. -/
def mappingIndices : List Int → List Int → List Int
  | [], _ => [0]
  | _ :: _, [] => []
  | d :: ds, s :: ss =>
    (List.range d.toNat).flatMap fun (c : Nat) =>
      (mappingIndices ds ss).map fun t => (c : Int) * s + t

/-- Canonical contiguous (row-major packed) strides for a shape:
`strideₖ = Π_{j>k} shapeⱼ`.  Used to phrase the spec's "reduction into a
canonical contiguous destination" comparison. -/
def contigStrides : List Int → List Int
  | [] => []
  | _ :: ds => ((prodNat ds : Nat) : Int) :: contigStrides ds

/-- Modelled from the spec: `DimensionOps::assignBaseIndices` assigns
indices "while pretending that the dimension of interest doesn't exist"
(§4.1 step 10): it enumerates the `ndims−1`-dimensional shape obtained
by deleting entry `dim` from the shape and strides arrays. -/
def baseIndices (wD srcS : List Int) (dim : Nat) : List Int :=
  mappingIndices (wD.eraseIdx dim) (srcS.eraseIdx dim)

/-- One line-accumulation loop `for (j = 1; j < size; j++)
working[base] = g(working[base], working[base + j·stride])`, shared by
the `rrSum`/`rrProd`/`rrMax`/`rrMin` bodies and the third pass of
`rrVar`. -/
def lineAccum (g : ℚ → ℚ → ℚ) (w : List ℚ) (base size stride : Int) : List ℚ :=
  (List.range (size - 1).toNat).foldl
    (fun w (j : Nat) =>
      setQ w base (g (getQ w base) (getQ w (base + ((j : Int) + 1) * stride)))) w

/-- `DimensionOps::rrSum`: for each base offset, accumulate the line's
values into `working[base]` by addition. -/
def rrSum (w : List ℚ) (idxs : List Int) (n : Nat) (size stride : Int) : List ℚ :=
  (List.range n).foldl (fun w i => lineAccum (· + ·) w (idxs.getD i 0) size stride) w

/-- `DimensionOps::rrProd`: accumulate each line into `working[base]` by
multiplication. -/
def rrProd (w : List ℚ) (idxs : List Int) (n : Nat) (size stride : Int) : List ℚ :=
  (List.range n).foldl (fun w i => lineAccum (· * ·) w (idxs.getD i 0) size stride) w

/-- `DimensionOps::rrMax`: `working[base] = max(working[offset],
working[base])` along each line. -/
def rrMax (w : List ℚ) (idxs : List Int) (n : Nat) (size stride : Int) : List ℚ :=
  (List.range n).foldl (fun w i => lineAccum (fun a v => Max.max v a) w (idxs.getD i 0) size stride) w

/-- `DimensionOps::rrMin`: `working[base] = min(working[offset],
working[base])` along each line. -/
def rrMin (w : List ℚ) (idxs : List Int) (n : Nat) (size stride : Int) : List ℚ :=
  (List.range n).foldl (fun w i => lineAccum (fun a v => Min.min v a) w (idxs.getD i 0) size stride) w

/-- First pass of `DimensionOps::rrVar`: `for (j = 0; j < size; j++)
mean += working[base + j·stride]` (the division by `size` happens at
the call site). -/
def meanPass (w : List ℚ) (base stride : Int) (n : Nat) : ℚ :=
  (List.range n).foldl (fun m (j : Nat) => m + getQ w (base + (j : Int) * stride)) 0

/-- Second pass of `DimensionOps::rrVar`: overwrite each line element
with `diff * diff`, its squared deviation from the mean. -/
def sqPass (w : List ℚ) (base stride : Int) (n : Nat) (mean : ℚ) : List ℚ :=
  (List.range n).foldl
    (fun w (j : Nat) =>
      let off := base + (j : Int) * stride
      let diff := getQ w off - mean
      setQ w off (diff * diff)) w

/-- `DimensionOps::rrVar`: per line, (1) accumulate the mean, (2)
overwrite each line element with its squared deviation from the mean,
(3) sum the squared deviations into `working[base]` and divide by
`size` (population variance, divisor `size`). -/
def rrVar (w : List ℚ) (idxs : List Int) (n : Nat) (size stride : Int) : List ℚ :=
  (List.range n).foldl
    (fun w i =>
      let base := idxs.getD i 0
      let mean := meanPass w base stride size.toNat / (size : ℚ)
      let w2 := sqPass w base stride size.toNat mean
      let w3 := lineAccum (· + ·) w2 base size stride
      setQ w3 base (getQ w3 base / (size : ℚ))) w

/-- Dispatch table built by the `switch (type)` statement. -/
def applyOp : RrOpKind → List ℚ → List Int → Nat → Int → Int → List ℚ
  | .sum => rrSum
  | .prod => rrProd
  | .max => rrMax
  | .min => rrMin
  | .var => rrVar

/-- The seven caller-supplied arguments once the tag has been resolved
and the `null` and dimension-count checks have passed. -/
structure RrRequestData where
  op : RrOpKind
  srcV : List ℚ
  srcD : List Int
  srcS : List Int
  dstV : List ℚ
  dstD : List Int
  dstS : List Int
  sel : List Int
deriving DecidableEq, Repr

/-- The checks of `DimensionOps::rrOp` executed before the arrays are
pinned: operator-tag resolution, the `null`-argument check, and the
dimension-count agreement check (every descriptor array must have the
length of `srcD`). -/
def validate1 (tag : Option RrOpKind)
    (srcV? : Option (List ℚ)) (srcD? srcS? : Option (List Int))
    (dstV? : Option (List ℚ)) (dstD? dstS? : Option (List Int))
    (sel? : Option (List Int)) : Except RrError RrRequestData :=
  match tag with
  | none => .error .unknownOperator
  | some op =>
    match srcV?, srcD?, srcS?, dstV?, dstD?, dstS?, sel? with
    | some srcV, some srcD, some srcS, some dstV, some dstD, some dstS, some sel =>
      if srcD.length = srcS.length ∧ srcD.length = dstD.length ∧ srcD.length = dstS.length then
        .ok ⟨op, srcV, srcD, srcS, dstV, dstD, dstS, sel⟩
      else
        .error .invalidArguments
    | _, _, _, _, _, _, _ => .error .invalidArguments

/-- Adjacent-duplicate scan over the (sorted) selected-axes list,
mirroring the `selectedDimsArr[i - 1] == selectedDimsArr[i]` loop. -/
def hasDup : List Int → Bool
  | [] => false
  | [_] => false
  | a :: b :: t => a == b || hasDup (b :: t)

/-- Wrap-around to signed 32-bit two's complement, the effective
semantics of the `jint` accumulator `acc *= srcDArr[dim]` (signed
overflow is formally undefined behavior in C++; the universal
two's-complement wrap is modelled).  `2147483648 = 2^31` and
`4294967296 = 2^32`. -/
def jintWrap (x : Int) : Int :=
  (x + 2147483648) % 4294967296 - 2147483648

/-- The per-axis validation loop: for each selected axis in sorted
order, check `0 ≤ dim < ndims` (else `axisOutOfRange`), then
`dstD[dim] ≤ 1` (else `nonSingletonReducedAxis`), accumulating
`acc := acc * srcD[dim]` in wrapping 32-bit `jint` arithmetic. -/
def axisLoop (ndims : Int) (srcD dstD : List Int) : List Int → Int → Except RrError Int
  | [], acc => .ok acc
  | dim :: rest, acc =>
    if 0 ≤ dim ∧ dim < ndims then
      if 1 < getI dstD dim then .error .nonSingletonReducedAxis
      else axisLoop ndims srcD dstD rest (jintWrap (acc * getI srcD dim))
    else .error .axisOutOfRange

/-- The accumulated shape-check product as the validation loop computes
it: starting from `acc`, multiply in `srcD[dim]` for each listed axis,
wrapping to 32-bit after every step. -/
def jintProdAcc (srcD : List Int) : Int → List Int → Int
  | acc, [] => acc
  | acc, d :: t => jintProdAcc srcD (jintWrap (acc * getI srcD d)) t

/-- The post-sort validation stage: duplicate scan, per-axis range and
singleton checks, and the final `acc != srcLen` shape-mismatch check
(whose C++ message string is also `"Invalid arguments"`). -/
def validateAxes (ndims : Int) (srcD dstD : List Int) (dstLen srcLen : Nat)
    (sorted : List Int) : Except RrError Unit :=
  if hasDup sorted then .error .duplicateAxis
  else
    match axisLoop ndims srcD dstD sorted (dstLen : Int) with
    | .error e => .error e
    | .ok acc => if acc = (srcLen : Int) then .ok () else .error .shapeMismatch

/-- One reduction pass of the driver loop over a selected axis `dim`:
divide the running line count, enumerate base offsets with the axis
deleted (`assignBaseIndices`), run the operator, and collapse the
working shape entry at `dim` to `1`.  The state is
`(working values, working shape, acc)`. -/
def reducePass (op : RrOpKind) (srcD srcS : List Int) :
    List ℚ × List Int × Int → Int → List ℚ × List Int × Int :=
  fun st dim =>
    let w := st.1
    let wD := st.2.1
    let acc := (st.2.2).tdiv (getI srcD dim)
    let idxs := baseIndices wD srcS dim.toNat
    let w2 := applyOp op w idxs acc.toNat (getI wD dim) (getI srcS dim)
    (w2, wD.set dim.toNat 1, acc)

/-- The post-validation computation: copy the source into the working
buffer, run one `reducePass` per sorted selected axis, then scatter
`working[workingIndices[i]]` into `dstV[dstIndices[i]]` for
`i < dstLen`, where both index lists enumerate the destination shape
(once with the source strides, once with the destination strides). -/
def compute (op : RrOpKind) (srcV : List ℚ) (srcD srcS : List Int)
    (dstV : List ℚ) (dstD dstS : List Int) (sorted : List Int) : List ℚ :=
  let st := sorted.foldl (reducePass op srcD srcS) (srcV, srcD, (srcV.length : Int))
  let w := st.1
  let wIdx := mappingIndices dstD srcS
  let dIdx := mappingIndices dstD dstS
  (List.range dstV.length).foldl
    (fun out i => setQ out (dIdx.getD i 0) (getQ w (wIdx.getD i 0))) dstV

/-- Observable outcome of one `rrOp` call: the raised error (if any) and
the final contents of the three caller-supplied arrays the call can
write through — the destination values, the pinned selected-axes array,
and (for the frame claims) the source values, which the code pins
`READ_ONLY` and never assigns. -/
structure RrResult where
  err : Option RrError
  srcV : Option (List ℚ)
  dstV : Option (List ℚ)
  selectedDims : Option (List Int)
deriving DecidableEq, Repr

/-- The stage of `DimensionOps::rrOp` reached once both layout checks
have passed: `std::sort` the pinned selected-axes array, run the
post-sort validation, then either return early on a zero-length source
or run the reduction and scatter.  Every result from this stage carries
the sorted selected-axes list. -/
def rrOpMain (u : RrRequestData) (srcV? : Option (List ℚ)) (dstV? : Option (List ℚ)) :
    RrResult :=
  let sorted := u.sel.insertionSort (· ≤ ·)
  match validateAxes (u.srcD.length : Int) u.srcD u.dstD u.dstV.length u.srcV.length
      sorted with
  | .error e => ⟨some e, srcV?, dstV?, some sorted⟩
  | .ok _ =>
    if u.srcV.length = 0 then ⟨none, srcV?, dstV?, some sorted⟩
    else
      ⟨none, srcV?, some (compute u.op u.srcV u.srcD u.srcS u.dstV u.dstD u.dstS sorted),
        some sorted⟩

/-- The two `MappingOps::checkDimensions` calls (source first, then
destination); a failing view is modelled as the `invalidLayout`
error, and the pinned selected-axes array is still in its original
order on these failure paths. -/
def rrOpChecked (cd : List Int → List Int → Nat → Bool) (u : RrRequestData)
    (srcV? : Option (List ℚ)) (dstV? : Option (List ℚ)) (sel? : Option (List Int)) :
    RrResult :=
  if cd u.srcD u.srcS u.srcV.length then
    if cd u.dstD u.dstS u.dstV.length then rrOpMain u srcV? dstV?
    else ⟨some .invalidLayout, srcV?, dstV?, sel?⟩
  else ⟨some .invalidLayout, srcV?, dstV?, sel?⟩

/-- `DimensionOps::rrOp`.  `cd` abstracts the external
`MappingOps::checkDimensions` layout validator (its packing rules are
outside the sources at hand); it receives a shape, a strides array and
the value-buffer length, and a `false` verdict is modelled as the
`invalidLayout` error.  The selected-axes array is sorted in place in
its pinned storage (`std::sort` at the line following the two layout
checks), so results reached past the layout checks carry the sorted
list even when a later check fails. -/
def rrOp (cd : List Int → List Int → Nat → Bool) (tag : Option RrOpKind)
    (srcV? : Option (List ℚ)) (srcD? srcS? : Option (List Int))
    (dstV? : Option (List ℚ)) (dstD? dstS? : Option (List Int))
    (sel? : Option (List Int)) : RrResult :=
  match validate1 tag srcV? srcD? srcS? dstV? dstD? dstS? sel? with
  | .error e => ⟨some e, srcV?, dstV?, sel?⟩
  | .ok u => rrOpChecked cd u srcV? dstV? sel?

/-- Whether a request passes the whole validation pipeline (steps 1–7 of
the spec): tag resolution, `null` checks, dimension-count agreement,
both layout checks, and the sorted-axis checks. -/
def validationPasses (cd : List Int → List Int → Nat → Bool) (tag : Option RrOpKind)
    (srcV? : Option (List ℚ)) (srcD? srcS? : Option (List Int))
    (dstV? : Option (List ℚ)) (dstD? dstS? : Option (List Int))
    (sel? : Option (List Int)) : Bool :=
  match validate1 tag srcV? srcD? srcS? dstV? dstD? dstS? sel? with
  | .error _ => false
  | .ok u =>
    cd u.srcD u.srcS u.srcV.length && cd u.dstD u.dstS u.dstV.length &&
      match validateAxes (u.srcD.length : Int) u.srcD u.dstD u.dstV.length u.srcV.length
          (u.sel.insertionSort (· ≤ ·)) with
      | .ok _ => true
      | .error _ => false

/-- A layout validator that accepts every layout; used to instantiate
`cd` at concrete witnesses. -/
def acceptAll : List Int → List Int → Nat → Bool := fun _ _ _ => true

/-- Values along one line of a buffer: the element at
`base + j·stride` for `j = 0, …, n−1`. -/
def lineVals (w : List ℚ) (base stride : Int) (n : Nat) : List ℚ :=
  (List.range n).map fun (j : Nat) => getQ w (base + (j : Int) * stride)

/-- Arithmetic mean of a list of rationals. -/
def meanQ (l : List ℚ) : ℚ :=
  l.sum / l.length

/-- Population variance of a list (divisor `length`, not
`length − 1`). -/
def popVar (l : List ℚ) : ℚ :=
  ((l.map fun x => (x - meanQ l) ^ 2).sum) / l.length

/-- A pure strided copy over the destination's logical shape: for each
destination coordinate (in canonical order), the source element at that
coordinate's source-stride offset is written to its destination-stride
offset. -/
def stridedCopy (srcV : List ℚ) (srcS : List Int) (dstV : List ℚ) (dstD dstS : List Int) :
    List ℚ :=
  (List.range dstV.length).foldl
    (fun out i =>
      setQ out ((mappingIndices dstD dstS).getD i 0)
        (getQ srcV ((mappingIndices dstD srcS).getD i 0))) dstV

/-- An explicit coordinate-wise copy from a contiguous buffer `c`
holding one value per coordinate of `shape` (in canonical order) into a
destination buffer laid out by `dstS`. -/
def coordCopy (dstV : List ℚ) (shape dstS : List Int) (c : List ℚ) : List ℚ :=
  (List.range dstV.length).foldl
    (fun out i =>
      setQ out ((mappingIndices shape dstS).getD i 0)
        (getQ c ((mappingIndices shape (contigStrides shape)).getD i 0))) dstV

end DimensionOps

namespace DimensionOps

set_option maxHeartbeats 4000000 in
/-- Claim C1: for a source view of shape `[2,3]` with row-major values
`[[1,2,3],[4,5,6]]`, reducing axis 0 into a destination of shape
`[1,3]` yields `[5,7,9]` under Sum, `[4,10,18]` under Product,
`[4,5,6]` under Max, and `[1,2,3]` under Min (for any layout validator
that accepts the two canonical layouts); each call reports success. -/
theorem c1_reduce_axis0_examples (cd : List Int → List Int → Nat → Bool)
    (hsrc : cd [2, 3] [3, 1] 6 = true) (hdst : cd [1, 3] [3, 1] 3 = true) :
    ((rrOp cd (some .sum) (some [1, 2, 3, 4, 5, 6]) (some [2, 3]) (some [3, 1])
        (some [0, 0, 0]) (some [1, 3]) (some [3, 1]) (some [0])).dstV = some [5, 7, 9] ∧
      (rrOp cd (some .sum) (some [1, 2, 3, 4, 5, 6]) (some [2, 3]) (some [3, 1])
        (some [0, 0, 0]) (some [1, 3]) (some [3, 1]) (some [0])).err = none) ∧
    ((rrOp cd (some .prod) (some [1, 2, 3, 4, 5, 6]) (some [2, 3]) (some [3, 1])
        (some [0, 0, 0]) (some [1, 3]) (some [3, 1]) (some [0])).dstV = some [4, 10, 18] ∧
      (rrOp cd (some .prod) (some [1, 2, 3, 4, 5, 6]) (some [2, 3]) (some [3, 1])
        (some [0, 0, 0]) (some [1, 3]) (some [3, 1]) (some [0])).err = none) ∧
    ((rrOp cd (some .max) (some [1, 2, 3, 4, 5, 6]) (some [2, 3]) (some [3, 1])
        (some [0, 0, 0]) (some [1, 3]) (some [3, 1]) (some [0])).dstV = some [4, 5, 6] ∧
      (rrOp cd (some .max) (some [1, 2, 3, 4, 5, 6]) (some [2, 3]) (some [3, 1])
        (some [0, 0, 0]) (some [1, 3]) (some [3, 1]) (some [0])).err = none) ∧
    ((rrOp cd (some .min) (some [1, 2, 3, 4, 5, 6]) (some [2, 3]) (some [3, 1])
        (some [0, 0, 0]) (some [1, 3]) (some [3, 1]) (some [0])).dstV = some [1, 2, 3] ∧
      (rrOp cd (some .min) (some [1, 2, 3, 4, 5, 6]) (some [2, 3]) (some [3, 1])
        (some [0, 0, 0]) (some [1, 3]) (some [3, 1]) (some [0])).err = none) := by
  have ht : Int.tdiv 6 2 = 3 := by decide
  have hw : jintWrap 6 = 6 := by decide
  refine ⟨⟨?_, ?_⟩, ⟨?_, ?_⟩, ⟨?_, ?_⟩, ⟨?_, ?_⟩⟩ <;>
    (simp [rrOp, rrOpChecked, rrOpMain, validate1, validateAxes, hasDup, axisLoop, compute,
      reducePass, applyOp, rrSum, rrProd, rrMax, rrMin, lineAccum, baseIndices, mappingIndices, getQ, setQ,
      getI, prodNat, ht, hw, hsrc, hdst, List.insertionSort, List.orderedInsert,
      List.range_succ, List.getD, List.set] <;> norm_num)

/-- Concrete instantiation of `c1_reduce_axis0_examples` with the
accept-everything layout validator. -/
theorem c1_reduce_axis0_examples_witness :
    ((rrOp acceptAll (some .sum) (some [1, 2, 3, 4, 5, 6]) (some [2, 3]) (some [3, 1])
        (some [0, 0, 0]) (some [1, 3]) (some [3, 1]) (some [0])).dstV = some [5, 7, 9] ∧
      (rrOp acceptAll (some .sum) (some [1, 2, 3, 4, 5, 6]) (some [2, 3]) (some [3, 1])
        (some [0, 0, 0]) (some [1, 3]) (some [3, 1]) (some [0])).err = none) ∧
    ((rrOp acceptAll (some .prod) (some [1, 2, 3, 4, 5, 6]) (some [2, 3]) (some [3, 1])
        (some [0, 0, 0]) (some [1, 3]) (some [3, 1]) (some [0])).dstV = some [4, 10, 18] ∧
      (rrOp acceptAll (some .prod) (some [1, 2, 3, 4, 5, 6]) (some [2, 3]) (some [3, 1])
        (some [0, 0, 0]) (some [1, 3]) (some [3, 1]) (some [0])).err = none) ∧
    ((rrOp acceptAll (some .max) (some [1, 2, 3, 4, 5, 6]) (some [2, 3]) (some [3, 1])
        (some [0, 0, 0]) (some [1, 3]) (some [3, 1]) (some [0])).dstV = some [4, 5, 6] ∧
      (rrOp acceptAll (some .max) (some [1, 2, 3, 4, 5, 6]) (some [2, 3]) (some [3, 1])
        (some [0, 0, 0]) (some [1, 3]) (some [3, 1]) (some [0])).err = none) ∧
    ((rrOp acceptAll (some .min) (some [1, 2, 3, 4, 5, 6]) (some [2, 3]) (some [3, 1])
        (some [0, 0, 0]) (some [1, 3]) (some [3, 1]) (some [0])).dstV = some [1, 2, 3] ∧
      (rrOp acceptAll (some .min) (some [1, 2, 3, 4, 5, 6]) (some [2, 3]) (some [3, 1])
        (some [0, 0, 0]) (some [1, 3]) (some [3, 1]) (some [0])).err = none) :=
  c1_reduce_axis0_examples acceptAll rfl rfl

theorem validate1_ok_fields {tag : Option RrOpKind} {srcV? : Option (List ℚ)}
    {srcD? srcS? : Option (List Int)} {dstV? : Option (List ℚ)}
    {dstD? dstS? : Option (List Int)} {sel? : Option (List Int)} {u : RrRequestData}
    (h : validate1 tag srcV? srcD? srcS? dstV? dstD? dstS? sel? = .ok u) :
    tag = some u.op ∧ srcV? = some u.srcV ∧ srcD? = some u.srcD ∧ srcS? = some u.srcS ∧
      dstV? = some u.dstV ∧ dstD? = some u.dstD ∧ dstS? = some u.dstS ∧ sel? = some u.sel := by
  unfold validate1 at h
  split at h
  · cases h
  · split at h
    · split at h
      · cases h
        exact ⟨rfl, rfl, rfl, rfl, rfl, rfl, rfl, rfl⟩
      · cases h
    · cases h

/-- Claim C5: whenever any validation check fails, the call returns that
check's error with the destination values buffer untouched, and the
source values buffer is never mutated on any path (the reduction runs
on a private working copy). -/
theorem c5_failure_leaves_buffers_untouched (cd : List Int → List Int → Nat → Bool)
    (tag : Option RrOpKind) (srcV? : Option (List ℚ)) (srcD? srcS? : Option (List Int))
    (dstV? : Option (List ℚ)) (dstD? dstS? : Option (List Int)) (sel? : Option (List Int)) :
    (rrOp cd tag srcV? srcD? srcS? dstV? dstD? dstS? sel?).srcV = srcV? ∧
    ((rrOp cd tag srcV? srcD? srcS? dstV? dstD? dstS? sel?).err.isSome →
      (rrOp cd tag srcV? srcD? srcS? dstV? dstD? dstS? sel?).dstV = dstV?) := by
  unfold rrOp rrOpChecked rrOpMain
  split
  · simp
  · rename_i u heq
    by_cases h1 : cd u.srcD u.srcS u.srcV.length <;>
      by_cases h2 : cd u.dstD u.dstS u.dstV.length <;>
      simp [h1, h2] <;> split <;> first | (simp; done) | (split <;> simp)

/-- Closed instance of `c5_failure_leaves_buffers_untouched` at a
request whose selected-axes list has a duplicate. -/
theorem c5_failure_leaves_buffers_untouched_witness :
    (rrOp acceptAll (some .sum) (some [1, 2, 3, 4, 5, 6]) (some [2, 3]) (some [3, 1])
        (some [7, 7, 7]) (some [1, 3]) (some [3, 1]) (some [0, 0])).srcV =
      some [1, 2, 3, 4, 5, 6] ∧
    ((rrOp acceptAll (some .sum) (some [1, 2, 3, 4, 5, 6]) (some [2, 3]) (some [3, 1])
        (some [7, 7, 7]) (some [1, 3]) (some [3, 1]) (some [0, 0])).err.isSome →
      (rrOp acceptAll (some .sum) (some [1, 2, 3, 4, 5, 6]) (some [2, 3]) (some [3, 1])
        (some [7, 7, 7]) (some [1, 3]) (some [3, 1]) (some [0, 0])).dstV = some [7, 7, 7]) :=
  c5_failure_leaves_buffers_untouched acceptAll (some .sum) (some [1, 2, 3, 4, 5, 6])
    (some [2, 3]) (some [3, 1]) (some [7, 7, 7]) (some [1, 3]) (some [3, 1]) (some [0, 0])

/-- Claim C9: the caller-supplied selected-axes array is sorted
ascending in place in its pinned storage as soon as the pre-pin checks
and both layout checks pass — in particular also on calls that
subsequently fail the duplicate, range, singleton or shape checks — and
the source values buffer (the only other caller array beside the
destination values that the kernel touches through a pin) is never
written. -/
theorem c9_selected_axes_sorted_in_place (cd : List Int → List Int → Nat → Bool)
    (tag : Option RrOpKind) (srcV? : Option (List ℚ)) (srcD? srcS? : Option (List Int))
    (dstV? : Option (List ℚ)) (dstD? dstS? : Option (List Int)) (sel? : Option (List Int)) :
    (rrOp cd tag srcV? srcD? srcS? dstV? dstD? dstS? sel?).srcV = srcV? ∧
    (rrOp cd tag srcV? srcD? srcS? dstV? dstD? dstS? sel?).selectedDims =
      (match validate1 tag srcV? srcD? srcS? dstV? dstD? dstS? sel? with
       | .error _ => sel?
       | .ok u =>
         if cd u.srcD u.srcS u.srcV.length && cd u.dstD u.dstS u.dstV.length then
           some (u.sel.insertionSort (· ≤ ·))
         else sel?) := by
  unfold rrOp rrOpChecked rrOpMain
  split
  · simp
  · rename_i u heq
    by_cases h1 : cd u.srcD u.srcS u.srcV.length <;>
      by_cases h2 : cd u.dstD u.dstS u.dstV.length <;>
      simp [h1, h2] <;> split <;> first | (simp; done) | (split <;> simp)

/-- Closed instance of `c9_selected_axes_sorted_in_place` at a call
that fails the shape check: the selected-axes list comes back sorted. -/
theorem c9_selected_axes_sorted_in_place_witness :
    (rrOp acceptAll (some .sum) (some [1, 2, 3, 4, 5, 6]) (some [2, 3]) (some [3, 1])
        (some [7, 7, 7]) (some [1, 3]) (some [3, 1]) (some [1, 0])).srcV =
      some [1, 2, 3, 4, 5, 6] ∧
    (rrOp acceptAll (some .sum) (some [1, 2, 3, 4, 5, 6]) (some [2, 3]) (some [3, 1])
        (some [7, 7, 7]) (some [1, 3]) (some [3, 1]) (some [1, 0])).selectedDims =
      some [0, 1] := by
  have h := c9_selected_axes_sorted_in_place acceptAll (some .sum) (some [1, 2, 3, 4, 5, 6])
    (some [2, 3]) (some [3, 1]) (some [7, 7, 7]) (some [1, 3]) (some [3, 1]) (some [1, 0])
  refine ⟨h.1, h.2.trans ?_⟩
  decide

theorem insertionSort_eq_of_perm {l₁ l₂ : List Int} (h : l₁.Perm l₂) :
    l₁.insertionSort (· ≤ ·) = l₂.insertionSort (· ≤ ·) :=
  List.eq_of_perm_of_sorted
    ((List.perm_insertionSort _ l₁).trans (h.trans (List.perm_insertionSort _ l₂).symm))
    (List.sorted_insertionSort _ l₁) (List.sorted_insertionSort _ l₂)

/-- Claim C8: the reduction passes run in ascending axis order after the
in-place sort, so any permutation of the same selected-axes set yields
an identical destination buffer and an identical error outcome. -/
theorem c8_axis_order_irrelevant (cd : List Int → List Int → Nat → Bool)
    (tag : Option RrOpKind) (srcV? : Option (List ℚ)) (srcD? srcS? : Option (List Int))
    (dstV? : Option (List ℚ)) (dstD? dstS? : Option (List Int))
    (sel1 sel2 : List Int) (h : sel1.Perm sel2) :
    (rrOp cd tag srcV? srcD? srcS? dstV? dstD? dstS? (some sel1)).dstV =
      (rrOp cd tag srcV? srcD? srcS? dstV? dstD? dstS? (some sel2)).dstV ∧
    (rrOp cd tag srcV? srcD? srcS? dstV? dstD? dstS? (some sel1)).err =
      (rrOp cd tag srcV? srcD? srcS? dstV? dstD? dstS? (some sel2)).err := by
  have hs := insertionSort_eq_of_perm h
  rcases tag with _ | op
  · simp [rrOp, validate1]
  rcases srcV? with _ | srcV
  · simp [rrOp, validate1]
  rcases srcD? with _ | srcD
  · simp [rrOp, validate1]
  rcases srcS? with _ | srcS
  · simp [rrOp, validate1]
  rcases dstV? with _ | dstV
  · simp [rrOp, validate1]
  rcases dstD? with _ | dstD
  · simp [rrOp, validate1]
  rcases dstS? with _ | dstS
  · simp [rrOp, validate1]
  simp only [rrOp, validate1]
  split_ifs with hlen
  · dsimp only
    simp only [rrOpChecked]
    dsimp only
    split_ifs with hc1 hc2 <;> simp [rrOpMain, hs]
  · simp

/-- Closed instance of `c8_axis_order_irrelevant`: reducing both axes of
the `[2,3]` example in either order gives the same outcome. -/
theorem c8_axis_order_irrelevant_witness :
    (rrOp acceptAll (some .sum) (some [1, 2, 3, 4, 5, 6]) (some [2, 3]) (some [3, 1])
        (some [0]) (some [1, 1]) (some [1, 1]) (some [0, 1])).dstV =
      (rrOp acceptAll (some .sum) (some [1, 2, 3, 4, 5, 6]) (some [2, 3]) (some [3, 1])
        (some [0]) (some [1, 1]) (some [1, 1]) (some [1, 0])).dstV ∧
    (rrOp acceptAll (some .sum) (some [1, 2, 3, 4, 5, 6]) (some [2, 3]) (some [3, 1])
        (some [0]) (some [1, 1]) (some [1, 1]) (some [0, 1])).err =
      (rrOp acceptAll (some .sum) (some [1, 2, 3, 4, 5, 6]) (some [2, 3]) (some [3, 1])
        (some [0]) (some [1, 1]) (some [1, 1]) (some [1, 0])).err :=
  c8_axis_order_irrelevant acceptAll (some .sum) (some [1, 2, 3, 4, 5, 6]) (some [2, 3])
    (some [3, 1]) (some [0]) (some [1, 1]) (some [1, 1]) [0, 1] [1, 0] (by decide)

/-- Claim C6: a request whose source value buffer is empty leaves the
destination buffer unchanged, and it reports success exactly when it
passes validation (the degenerate empty reduction is a no-op, not an
error). -/
theorem c6_empty_source_is_noop (cd : List Int → List Int → Nat → Bool)
    (tag : Option RrOpKind) (srcV? : Option (List ℚ)) (srcD? srcS? : Option (List Int))
    (dstV? : Option (List ℚ)) (dstD? dstS? : Option (List Int)) (sel? : Option (List Int))
    (h : srcV? = some ([] : List ℚ)) :
    (rrOp cd tag srcV? srcD? srcS? dstV? dstD? dstS? sel?).dstV = dstV? ∧
    ((rrOp cd tag srcV? srcD? srcS? dstV? dstD? dstS? sel?).err = none ↔
      validationPasses cd tag srcV? srcD? srcS? dstV? dstD? dstS? sel? = true) := by
  subst h
  unfold rrOp rrOpChecked rrOpMain validationPasses
  split
  · simp
  · rename_i u heq
    have husrc : u.srcV = [] :=
      Option.some.inj ((validate1_ok_fields heq).2.1).symm
    simp only [husrc, List.length_nil]
    by_cases h1 : cd u.srcD u.srcS 0 <;> by_cases h2 : cd u.dstD u.dstS u.dstV.length <;>
      simp [h1, h2] <;> split <;> simp_all

/-- Closed instance of `c6_empty_source_is_noop` at a valid request with
an empty source. -/
theorem c6_empty_source_is_noop_witness :
    (rrOp acceptAll (some .sum) (some []) (some [0, 3]) (some [3, 1])
        (some [9, 9, 9]) (some [1, 3]) (some [3, 1]) (some [0])).dstV = some [9, 9, 9] ∧
    ((rrOp acceptAll (some .sum) (some []) (some [0, 3]) (some [3, 1])
        (some [9, 9, 9]) (some [1, 3]) (some [3, 1]) (some [0])).err = none ↔
      validationPasses acceptAll (some .sum) (some []) (some [0, 3]) (some [3, 1])
        (some [9, 9, 9]) (some [1, 3]) (some [3, 1]) (some [0]) = true) :=
  c6_empty_source_is_noop acceptAll (some .sum) (some []) (some [0, 3]) (some [3, 1])
    (some [9, 9, 9]) (some [1, 3]) (some [3, 1]) (some [0]) rfl

theorem hasDup_eq_false_of_nodup : ∀ {l : List Int}, l.Nodup → hasDup l = false
  | [], _ => rfl
  | [_], _ => rfl
  | a :: b :: t, h => by
    rw [List.nodup_cons] at h
    have hab : ¬a = b := fun he => h.1 (he ▸ List.mem_cons_self b t)
    simpa [hasDup, hab] using hasDup_eq_false_of_nodup h.2

theorem nodup_of_sorted_of_hasDup_eq_false :
    ∀ {l : List Int}, l.Sorted (· ≤ ·) → hasDup l = false → l.Nodup
  | [], _, _ => List.nodup_nil
  | [_], _, _ => List.nodup_singleton _
  | a :: b :: t, hs, h => by
    rw [hasDup, Bool.or_eq_false_iff, beq_eq_false_iff_ne] at h
    rw [List.sorted_cons] at hs
    refine List.nodup_cons.2 ⟨?_, nodup_of_sorted_of_hasDup_eq_false hs.2 h.2⟩
    intro hmem
    rcases List.mem_cons.1 hmem with he | hmem'
    · exact h.1 he
    · have hba : b ≤ a := (List.sorted_cons.1 hs.2).1 a hmem'
      have hab : a ≤ b := hs.1 b (List.mem_cons_self b t)
      exact h.1 (le_antisymm hab hba)

theorem jintWrap_emod (x : Int) : jintWrap x % 4294967296 = x % 4294967296 := by
  unfold jintWrap
  omega

theorem jintWrap_congr {x y : Int} (h : x % 4294967296 = y % 4294967296) :
    jintWrap x = jintWrap y := by
  unfold jintWrap
  omega

theorem jintWrap_mul_left (x y : Int) : jintWrap (jintWrap x * y) = jintWrap (x * y) := by
  apply jintWrap_congr
  rw [Int.mul_emod, jintWrap_emod, ← Int.mul_emod]

theorem jintProdAcc_eq (srcD : List Int) :
    ∀ (L : List Int) (acc : Int),
      jintProdAcc srcD acc L =
        if L = [] then acc else jintWrap (acc * (L.map fun d => getI srcD d).prod)
  | [], acc => rfl
  | d :: t, acc => by
    rw [show jintProdAcc srcD acc (d :: t) =
        jintProdAcc srcD (jintWrap (acc * getI srcD d)) t from rfl,
      jintProdAcc_eq srcD t _]
    cases t with
    | nil => simp
    | cons e t' =>
      rw [if_neg (by simp), if_neg (by simp), jintWrap_mul_left, mul_assoc]
      simp [List.prod_cons, mul_assoc]

theorem jintProdAcc_perm (srcD : List Int) (acc : Int) {L₁ L₂ : List Int}
    (h : L₁.Perm L₂) : jintProdAcc srcD acc L₁ = jintProdAcc srcD acc L₂ := by
  rw [jintProdAcc_eq, jintProdAcc_eq]
  rcases eq_or_ne L₁ [] with h1 | h1
  · subst h1
    rw [h.symm.eq_nil]
  · have h2 : L₂ ≠ [] := fun he => h1 (he ▸ h).eq_nil
    rw [if_neg h1, if_neg h2, (h.map fun d => getI srcD d).prod_eq]

theorem axisLoop_ok {ndims : Int} {srcD dstD : List Int} :
    ∀ {L : List Int} {acc : Int},
      (∀ dim ∈ L, (0 ≤ dim ∧ dim < ndims) ∧ getI dstD dim ≤ 1) →
      axisLoop ndims srcD dstD L acc = .ok (jintProdAcc srcD acc L)
  | [], acc, _ => by simp [axisLoop, jintProdAcc]
  | d :: t, acc, h => by
    obtain ⟨⟨h0, h1⟩, h2⟩ := h d (List.mem_cons_self d t)
    rw [axisLoop, if_pos ⟨h0, h1⟩, if_neg (not_lt.2 h2),
      axisLoop_ok fun x hx => h x (List.mem_cons_of_mem _ hx)]
    rfl

theorem axisLoop_error_at {ndims : Int} {srcD dstD : List Int} :
    ∀ (L : List Int) (acc : Int) (i : Nat), i < L.length →
      ¬(0 ≤ L.getD i 0 ∧ L.getD i 0 < ndims) →
      (∀ k, k < i → (0 ≤ L.getD k 0 ∧ L.getD k 0 < ndims) ∧ getI dstD (L.getD k 0) ≤ 1) →
      axisLoop ndims srcD dstD L acc = .error .axisOutOfRange
  | [], _, i, hi, _, _ => absurd hi (by simp)
  | d :: t, acc, 0, _, hbad, _ => by
    rw [axisLoop, if_neg (by simpa using hbad)]
  | d :: t, acc, i + 1, hi, hbad, hpre => by
    obtain ⟨⟨h0, h1⟩, h2⟩ := by simpa using hpre 0 (Nat.succ_pos _)
    rw [axisLoop, if_pos ⟨h0, h1⟩, if_neg (not_lt.2 h2)]
    exact axisLoop_error_at t _ i (by simpa using hi) (by simpa using hbad)
      fun k hk => by simpa using hpre (k + 1) (by omega)

theorem rrOp_all_some_reduce (cd : List Int → List Int → Nat → Bool) (op : RrOpKind)
    (srcV : List ℚ) (srcD srcS : List Int) (dstV : List ℚ) (dstD dstS : List Int)
    (sel : List Int)
    (hnd : srcD.length = srcS.length ∧ srcD.length = dstD.length ∧ srcD.length = dstS.length)
    (hcd1 : cd srcD srcS srcV.length = true) (hcd2 : cd dstD dstS dstV.length = true) :
    rrOp cd (some op) (some srcV) (some srcD) (some srcS) (some dstV) (some dstD) (some dstS)
        (some sel) =
      rrOpMain ⟨op, srcV, srcD, srcS, dstV, dstD, dstS, sel⟩ (some srcV) (some dstV) := by
  simp only [rrOp, validate1, if_pos hnd]
  simp only [rrOpChecked, hcd1, hcd2, if_true]

/-- Claim C3 is falsified as stated: the `jint` accumulator of the
shape check wraps at 32 bits, so a request whose mathematical product
`dstLen · Π srcD[sel] = 1 · 65536 · 65536 = 2^32` differs from
`srcLen = 0` is nevertheless accepted (the wrapped product is
`0 = srcLen`) and the call reports success — a silent truncation the
claim rules out.  Both views are coherent (`Π srcD = 0 = srcLen`,
`Π dstD = 1 = dstLen`), so the earlier checks genuinely pass. -/
theorem c3_counterexample :
    (([(0 : ℚ)] : List ℚ).length : Int) *
        (([(1 : Int), 2]).map fun d => getI [0, 65536, 65536] d).prod ≠
      (([] : List ℚ).length : Int) ∧
    (rrOp acceptAll (some .sum) (some ([] : List ℚ)) (some [0, 65536, 65536])
        (some [1, 65536, 1]) (some [(0 : ℚ)]) (some [1, 1, 1]) (some [1, 1, 1])
        (some [1, 2])).err = none := by
  decide

/-- Claim C3 (amended): for every request passing the operator,
argument, dimension-count, layout, duplicate, range and singleton
checks, the call fails with the shape-mismatch error exactly when
`dstV.length · Π srcD[sel]`, accumulated in wrapping 32-bit `jint`
arithmetic as the program computes it (`jintProdAcc`), differs from
`srcV.length`, and reports success otherwise; a mathematical mismatch
whose wrapped product happens to equal `srcV.length` silently passes
the check. -/
theorem c3_amended_wrapped_shape_check (cd : List Int → List Int → Nat → Bool)
    (op : RrOpKind) (srcV : List ℚ) (srcD srcS : List Int) (dstV : List ℚ)
    (dstD dstS : List Int) (sel : List Int)
    (hnd : srcD.length = srcS.length ∧ srcD.length = dstD.length ∧ srcD.length = dstS.length)
    (hcd1 : cd srcD srcS srcV.length = true) (hcd2 : cd dstD dstS dstV.length = true)
    (hnodup : sel.Nodup)
    (hax : ∀ dim ∈ sel, (0 ≤ dim ∧ dim < (srcD.length : Int)) ∧ getI dstD dim ≤ 1) :
    ((rrOp cd (some op) (some srcV) (some srcD) (some srcS) (some dstV) (some dstD)
        (some dstS) (some sel)).err = some .shapeMismatch ↔
      jintProdAcc srcD (dstV.length : Int) sel ≠ (srcV.length : Int)) ∧
    (jintProdAcc srcD (dstV.length : Int) sel = (srcV.length : Int) →
      (rrOp cd (some op) (some srcV) (some srcD) (some srcS) (some dstV) (some dstD)
        (some dstS) (some sel)).err = none) := by
  rw [rrOp_all_some_reduce cd op srcV srcD srcS dstV dstD dstS sel hnd hcd1 hcd2]
  have hperm : (sel.insertionSort (· ≤ ·)).Perm sel := List.perm_insertionSort _ sel
  have hdupF : hasDup (sel.insertionSort (· ≤ ·)) = false :=
    hasDup_eq_false_of_nodup (hperm.nodup_iff.2 hnodup)
  have hloop := @axisLoop_ok (srcD.length : Int) srcD dstD (sel.insertionSort (· ≤ ·))
    (dstV.length : Int) fun dim hdim => hax dim (hperm.mem_iff.1 hdim)
  have hprodeq : jintProdAcc srcD (dstV.length : Int) (sel.insertionSort (· ≤ ·)) =
      jintProdAcc srcD (dstV.length : Int) sel :=
    jintProdAcc_perm srcD (dstV.length : Int) hperm
  simp only [rrOpMain, validateAxes, hdupF, Bool.false_eq_true, if_false, hloop, hprodeq]
  by_cases hc : jintProdAcc srcD (dstV.length : Int) sel = (srcV.length : Int)
  · rw [if_pos hc]
    refine ⟨?_, fun _ => ?_⟩ <;> dsimp only <;> split <;> simp [hc]
  · rw [if_neg hc]
    exact ⟨by simp [hc], fun h => absurd h hc⟩

/-- Closed instance of `c3_amended_wrapped_shape_check`: the `[2,3]`
source reduced over axis 0 into a 3-element destination satisfies the
wrapped count invariant (`jintWrap (3·2) = 6`) and succeeds. -/
theorem c3_amended_wrapped_shape_check_witness :
    ((rrOp acceptAll (some .sum) (some [1, 2, 3, 4, 5, 6]) (some [2, 3]) (some [3, 1])
        (some [0, 0, 0]) (some [1, 3]) (some [3, 1]) (some [0])).err =
        some .shapeMismatch ↔
      jintProdAcc [2, 3] ((3 : Nat) : Int) [0] ≠ ((6 : Nat) : Int)) ∧
    (jintProdAcc [2, 3] ((3 : Nat) : Int) [0] = ((6 : Nat) : Int) →
      (rrOp acceptAll (some .sum) (some [1, 2, 3, 4, 5, 6]) (some [2, 3]) (some [3, 1])
        (some [0, 0, 0]) (some [1, 3]) (some [3, 1]) (some [0])).err = none) :=
  c3_amended_wrapped_shape_check acceptAll .sum [1, 2, 3, 4, 5, 6] [2, 3] [3, 1] [0, 0, 0]
    [1, 3] [3, 1] [0] (by decide) rfl rfl (by decide) (by decide)

/-- Claim C7 is falsified as stated: the selected-axes list `[0, 5]`
contains the index `5`, which lies outside `[0, ndims) = [0, 1)`, yet
the call is rejected with the non-singleton error (axis `0` fails the
destination-length check before axis `5` is range-checked), not with
`axisOutOfRange`. -/
theorem c7_counterexample :
    ((5 : Int) ∈ [(0 : Int), 5] ∧ ¬(0 ≤ (5 : Int) ∧ (5 : Int) < (([(2 : Int)].length : Nat) : Int))) ∧
    (rrOp acceptAll (some .sum) (some [1, 2]) (some [2]) (some [1]) (some [0, 0]) (some [2])
        (some [1]) (some [0, 5])).err = some RrError.nonSingletonReducedAxis ∧
    (rrOp acceptAll (some .sum) (some [1, 2]) (some [2]) (some [1]) (some [0, 0]) (some [2])
        (some [1]) (some [0, 5])).err ≠ some RrError.axisOutOfRange := by
  decide

/-- Claim C7 (amended): a selected-axes list with a repeated index is
always rejected with `duplicateAxis` (the duplicate scan runs first,
over the sorted list); a list containing an index outside
`[0, ndims)` is rejected with `axisOutOfRange` provided it has no
duplicate and every axis preceding the offending one in sorted order
passes both the range check and the singleton check; in both cases the
rejection is deterministic and happens before any mutation of the
working, source, or destination value buffers. -/
theorem c7_amended_duplicate_and_range_rejection (cd : List Int → List Int → Nat → Bool)
    (op : RrOpKind) (srcV : List ℚ) (srcD srcS : List Int) (dstV : List ℚ)
    (dstD dstS : List Int) (sel : List Int)
    (hnd : srcD.length = srcS.length ∧ srcD.length = dstD.length ∧ srcD.length = dstS.length)
    (hcd1 : cd srcD srcS srcV.length = true) (hcd2 : cd dstD dstS dstV.length = true) :
    (¬sel.Nodup →
      (rrOp cd (some op) (some srcV) (some srcD) (some srcS) (some dstV) (some dstD)
          (some dstS) (some sel)).err = some .duplicateAxis ∧
      (rrOp cd (some op) (some srcV) (some srcD) (some srcS) (some dstV) (some dstD)
          (some dstS) (some sel)).dstV = some dstV ∧
      (rrOp cd (some op) (some srcV) (some srcD) (some srcS) (some dstV) (some dstD)
          (some dstS) (some sel)).srcV = some srcV) ∧
    (∀ i : Nat, i < (sel.insertionSort (· ≤ ·)).length →
      ¬(0 ≤ (sel.insertionSort (· ≤ ·)).getD i 0 ∧
          (sel.insertionSort (· ≤ ·)).getD i 0 < (srcD.length : Int)) →
      (∀ k : Nat, k < i →
        (0 ≤ (sel.insertionSort (· ≤ ·)).getD k 0 ∧
            (sel.insertionSort (· ≤ ·)).getD k 0 < (srcD.length : Int)) ∧
          getI dstD ((sel.insertionSort (· ≤ ·)).getD k 0) ≤ 1) →
      sel.Nodup →
      (rrOp cd (some op) (some srcV) (some srcD) (some srcS) (some dstV) (some dstD)
          (some dstS) (some sel)).err = some .axisOutOfRange ∧
      (rrOp cd (some op) (some srcV) (some srcD) (some srcS) (some dstV) (some dstD)
          (some dstS) (some sel)).dstV = some dstV ∧
      (rrOp cd (some op) (some srcV) (some srcD) (some srcS) (some dstV) (some dstD)
          (some dstS) (some sel)).srcV = some srcV) := by
  rw [rrOp_all_some_reduce cd op srcV srcD srcS dstV dstD dstS sel hnd hcd1 hcd2]
  have hperm : (sel.insertionSort (· ≤ ·)).Perm sel := List.perm_insertionSort _ sel
  constructor
  · intro hdup
    have hdupT : hasDup (sel.insertionSort (· ≤ ·)) = true := by
      cases hd : hasDup (sel.insertionSort (· ≤ ·)) with
      | true => rfl
      | false =>
        exact absurd (hperm.nodup_iff.1
          (nodup_of_sorted_of_hasDup_eq_false (List.sorted_insertionSort _ sel) hd)) hdup
    simp only [rrOpMain, validateAxes, hdupT, if_true]
    exact ⟨trivial, trivial, trivial⟩
  · intro i hi hbad hpre hnodup
    have hdupF : hasDup (sel.insertionSort (· ≤ ·)) = false :=
      hasDup_eq_false_of_nodup (hperm.nodup_iff.2 hnodup)
    have herr := @axisLoop_error_at (srcD.length : Int) srcD dstD
      (sel.insertionSort (· ≤ ·)) (dstV.length : Int) i hi hbad hpre
    simp only [rrOpMain, validateAxes, hdupF, Bool.false_eq_true, if_false, herr]
    exact ⟨trivial, trivial, trivial⟩

/-- Closed instances of `c7_amended_duplicate_and_range_rejection`: a
duplicated axis list gets `duplicateAxis`, and an out-of-range axis
with no duplicate and no earlier failing axis gets `axisOutOfRange`. -/
theorem c7_amended_duplicate_and_range_rejection_witness :
    ((rrOp acceptAll (some .sum) (some [1, 2]) (some [2]) (some [1]) (some [0]) (some [1])
        (some [1]) (some [0, 0])).err = some .duplicateAxis ∧
      (rrOp acceptAll (some .sum) (some [1, 2]) (some [2]) (some [1]) (some [0]) (some [1])
        (some [1]) (some [0, 0])).dstV = some [0] ∧
      (rrOp acceptAll (some .sum) (some [1, 2]) (some [2]) (some [1]) (some [0]) (some [1])
        (some [1]) (some [0, 0])).srcV = some [1, 2]) ∧
    ((rrOp acceptAll (some .sum) (some [1, 2]) (some [2]) (some [1]) (some [0]) (some [1])
        (some [1]) (some [5])).err = some .axisOutOfRange ∧
      (rrOp acceptAll (some .sum) (some [1, 2]) (some [2]) (some [1]) (some [0]) (some [1])
        (some [1]) (some [5])).dstV = some [0] ∧
      (rrOp acceptAll (some .sum) (some [1, 2]) (some [2]) (some [1]) (some [0]) (some [1])
        (some [1]) (some [5])).srcV = some [1, 2]) :=
  ⟨(c7_amended_duplicate_and_range_rejection acceptAll .sum [1, 2] [2] [1] [0] [1] [1]
      [0, 0] (by decide) rfl rfl).1 (by decide),
    (c7_amended_duplicate_and_range_rejection acceptAll .sum [1, 2] [2] [1] [0] [1] [1]
      [5] (by decide) rfl rfl).2 0 (by decide) (by decide)
      (fun k hk => absurd hk (Nat.not_lt_zero k)) (by decide)⟩

theorem compute_nil (op : RrOpKind) (srcV : List ℚ) (srcD srcS : List Int) (dstV : List ℚ)
    (dstD dstS : List Int) :
    compute op srcV srcD srcS dstV dstD dstS [] = stridedCopy srcV srcS dstV dstD dstS :=
  rfl

/-- Claim C10: an empty selected-axes list is accepted; the request then
succeeds exactly when the destination and source element counts agree,
and in that case the operation degenerates to a pure strided copy of
every source value to its coordinate-matching destination offset. -/
theorem c10_empty_selection_is_strided_copy (cd : List Int → List Int → Nat → Bool)
    (op : RrOpKind) (srcV : List ℚ) (srcD srcS : List Int) (dstV : List ℚ)
    (dstD dstS : List Int)
    (hnd : srcD.length = srcS.length ∧ srcD.length = dstD.length ∧ srcD.length = dstS.length)
    (hcd1 : cd srcD srcS srcV.length = true) (hcd2 : cd dstD dstS dstV.length = true) :
    ((rrOp cd (some op) (some srcV) (some srcD) (some srcS) (some dstV) (some dstD)
        (some dstS) (some ([] : List Int))).err = none ↔ dstV.length = srcV.length) ∧
    (dstV.length = srcV.length →
      (rrOp cd (some op) (some srcV) (some srcD) (some srcS) (some dstV) (some dstD)
        (some dstS) (some ([] : List Int))).dstV =
        some (stridedCopy srcV srcS dstV dstD dstS)) := by
  rw [rrOp_all_some_reduce cd op srcV srcD srcS dstV dstD dstS [] hnd hcd1 hcd2]
  have hva : validateAxes ((srcD.length : Nat) : Int) srcD dstD dstV.length srcV.length
      ([].insertionSort (· ≤ ·)) =
      if ((dstV.length : Nat) : Int) = ((srcV.length : Nat) : Int) then .ok ()
      else .error .shapeMismatch := by
    simp [validateAxes, hasDup, axisLoop, List.insertionSort]
  by_cases hc : dstV.length = srcV.length
  · rw [rrOpMain, hva, if_pos (by exact_mod_cast hc)]
    constructor
    · dsimp only
      split <;> simp [hc]
    · intro _
      dsimp only
      split
      · rename_i hlen0
        have hsrc_nil : srcV = [] := List.length_eq_zero.1 hlen0
        have hdst_nil : dstV = [] := List.length_eq_zero.1 (hc.trans hlen0)
        subst hsrc_nil hdst_nil
        simp [stridedCopy]
      · simp only [List.insertionSort]
        rw [compute_nil]
  · rw [rrOpMain, hva, if_neg (by exact_mod_cast hc)]
    exact ⟨by simp [hc], fun h => absurd h hc⟩

/-- Closed instance of `c10_empty_selection_is_strided_copy` at a
2-element transposed copy. -/
theorem c10_empty_selection_is_strided_copy_witness :
    ((rrOp acceptAll (some .sum) (some [1, 2]) (some [2, 1]) (some [1, 1]) (some [0, 0])
        (some [2, 1]) (some [1, 2]) (some ([] : List Int))).err = none ↔
      ([(0 : ℚ), 0]).length = ([(1 : ℚ), 2]).length) ∧
    (([(0 : ℚ), 0]).length = ([(1 : ℚ), 2]).length →
      (rrOp acceptAll (some .sum) (some [1, 2]) (some [2, 1]) (some [1, 1]) (some [0, 0])
        (some [2, 1]) (some [1, 2]) (some ([] : List Int))).dstV =
        some (stridedCopy [1, 2] [1, 1] [0, 0] [2, 1] [1, 2])) :=
  c10_empty_selection_is_strided_copy acceptAll .sum [1, 2] [2, 1] [1, 1] [0, 0] [2, 1]
    [1, 2] (by decide) rfl rfl

theorem setQ_length (w : List ℚ) (i : Int) (v : ℚ) : (setQ w i v).length = w.length := by
  unfold setQ
  split <;> simp

theorem getQ_setQ_self {w : List ℚ} {i : Int} (v : ℚ) (h0 : 0 ≤ i) (hlt : i.toNat < w.length) :
    getQ (setQ w i v) i = v := by
  simp [getQ, setQ, h0, List.getD_eq_getElem?_getD, List.getElem?_set_self hlt]

theorem getQ_setQ_ne {i p : Int} (w : List ℚ) (v : ℚ) (h : i ≠ p) :
    getQ (setQ w i v) p = getQ w p := by
  unfold getQ setQ
  by_cases h0 : 0 ≤ i
  · by_cases hp : 0 ≤ p
    · have hne : i.toNat ≠ p.toNat := fun he => h (by omega)
      simp [h0, hp, List.getD_eq_getElem?_getD, List.getElem?_set_ne hne]
    · simp [h0, hp]
  · simp [h0]

theorem foldl_add_eq_sum (f : Nat → ℚ) :
    ∀ (l : List Nat) (init : ℚ), l.foldl (fun m j => m + f j) init = init + (l.map f).sum
  | [], init => by simp
  | j :: t, init => by
    rw [List.foldl_cons, foldl_add_eq_sum f t (init + f j)]
    simp [add_assoc]

theorem lineVals_length (w : List ℚ) (base stride : Int) (n : Nat) :
    (lineVals w base stride n).length = n := by
  simp [lineVals]

theorem meanPass_eq_sum (w : List ℚ) (base stride : Int) (n : Nat) :
    meanPass w base stride n = (lineVals w base stride n).sum := by
  unfold meanPass lineVals
  rw [foldl_add_eq_sum]
  simp

theorem off_ne_off {base stride : Int} (hs : stride ≠ 0) {j k : Nat} (h : j ≠ k) :
    base + (j : Int) * stride ≠ base + (k : Int) * stride := by
  intro he
  apply h
  have hjk : (j : Int) * stride = (k : Int) * stride := by omega
  have := mul_right_cancel₀ hs hjk
  exact_mod_cast this

theorem sqPass_spec {base stride : Int} (hs : stride ≠ 0) (mean : ℚ) :
    ∀ (n : Nat) (w : List ℚ),
      (∀ j : Nat, j < n →
        0 ≤ base + (j : Int) * stride ∧ (base + (j : Int) * stride).toNat < w.length) →
      (sqPass w base stride n mean).length = w.length ∧
      (∀ j : Nat, j < n →
        getQ (sqPass w base stride n mean) (base + (j : Int) * stride) =
          (getQ w (base + (j : Int) * stride) - mean) *
            (getQ w (base + (j : Int) * stride) - mean)) ∧
      (∀ p : Int, (∀ j : Nat, j < n → p ≠ base + (j : Int) * stride) →
        getQ (sqPass w base stride n mean) p = getQ w p)
  | 0, w, _ => ⟨rfl, fun j hj => absurd hj (Nat.not_lt_zero j), fun _ _ => rfl⟩
  | n + 1, w, hb => by
    have hstep : sqPass w base stride (n + 1) mean =
        setQ (sqPass w base stride n mean) (base + (n : Int) * stride)
          ((getQ (sqPass w base stride n mean) (base + (n : Int) * stride) - mean) *
            (getQ (sqPass w base stride n mean) (base + (n : Int) * stride) - mean)) := by
      unfold sqPass
      rw [List.range_succ, List.foldl_append]
      rfl
    have ih := sqPass_spec hs mean n w fun j hj => hb j (Nat.lt_succ_of_lt hj)
    have hSn : getQ (sqPass w base stride n mean) (base + (n : Int) * stride) =
        getQ w (base + (n : Int) * stride) :=
      ih.2.2 _ fun j hj => off_ne_off hs (Nat.ne_of_gt hj)
    have hbn := hb n (Nat.lt_succ_self n)
    refine ⟨?_, ?_, ?_⟩
    · rw [hstep, setQ_length, ih.1]
    · intro j hj
      rcases Nat.lt_succ_iff_lt_or_eq.1 hj with hj' | hj'
      · rw [hstep, getQ_setQ_ne _ _ (off_ne_off hs (Nat.ne_of_gt hj')), ih.2.1 j hj']
      · subst hj'
        rw [hstep, getQ_setQ_self _ hbn.1 (by rw [ih.1]; exact hbn.2), hSn]
    · intro p hp
      rw [hstep, getQ_setQ_ne _ _ fun he => hp n (Nat.lt_succ_self n) he.symm,
        ih.2.2 p fun j hj => hp j (Nat.lt_succ_of_lt hj)]

theorem accumFold_spec (g : ℚ → ℚ → ℚ) (base : Int) (f : Nat → Int)
    (hne : ∀ j : Nat, f j ≠ base) (h0 : 0 ≤ base) :
    ∀ (m : Nat) (w : List ℚ), base.toNat < w.length →
      ((List.range m).foldl (fun w j => setQ w base (g (getQ w base) (getQ w (f j)))) w).length
          = w.length ∧
      getQ ((List.range m).foldl (fun w j => setQ w base (g (getQ w base) (getQ w (f j)))) w)
          base = (List.range m).foldl (fun a j => g a (getQ w (f j))) (getQ w base) ∧
      (∀ p : Int, p ≠ base →
        getQ ((List.range m).foldl (fun w j => setQ w base (g (getQ w base) (getQ w (f j)))) w)
          p = getQ w p)
  | 0, w, _ => ⟨rfl, rfl, fun _ _ => rfl⟩
  | m + 1, w, hlt => by
    have ih := accumFold_spec g base f hne h0 m w hlt
    have hstep :
        (List.range (m + 1)).foldl (fun w j => setQ w base (g (getQ w base) (getQ w (f j)))) w =
          setQ ((List.range m).foldl (fun w j => setQ w base (g (getQ w base) (getQ w (f j)))) w)
            base
            (g (getQ ((List.range m).foldl
                (fun w j => setQ w base (g (getQ w base) (getQ w (f j)))) w) base)
              (getQ ((List.range m).foldl
                (fun w j => setQ w base (g (getQ w base) (getQ w (f j)))) w) (f m))) := by
      rw [List.range_succ, List.foldl_append]
      rfl
    refine ⟨?_, ?_, ?_⟩
    · rw [hstep, setQ_length, ih.1]
    · rw [hstep, getQ_setQ_self _ h0 (by rw [ih.1]; exact hlt), ih.2.1,
        ih.2.2 (f m) (hne m), List.range_succ, List.foldl_append]
      rfl
    · intro p hp
      rw [hstep, getQ_setQ_ne _ _ fun he => hp he.symm, ih.2.2 p hp]

theorem lineAccum_spec (g : ℚ → ℚ → ℚ) (w : List ℚ) (base size stride : Int)
    (hs : stride ≠ 0) (h0 : 0 ≤ base) (hlt : base.toNat < w.length) :
    (lineAccum g w base size stride).length = w.length ∧
    getQ (lineAccum g w base size stride) base =
      (List.range (size - 1).toNat).foldl
        (fun a (j : Nat) => g a (getQ w (base + ((j : Int) + 1) * stride))) (getQ w base) ∧
    ∀ p : Int, p ≠ base → getQ (lineAccum g w base size stride) p = getQ w p := by
  have hne : ∀ j : Nat, base + ((j : Int) + 1) * stride ≠ base := by
    intro j he
    have hj : ((j : Int) + 1) * stride ≠ 0 :=
      mul_ne_zero (by positivity) hs
    omega
  exact accumFold_spec g base (fun j => base + ((j : Int) + 1) * stride) hne h0
    (size - 1).toNat w hlt

theorem popVar_singleton (x : ℚ) : popVar [x] = 0 := by
  simp [popVar, meanQ]

theorem rrVar_single_line (w : List ℚ) (base stride size : Int) (hs : stride ≠ 0)
    (hsz : 1 ≤ size)
    (hb : ∀ j : Nat, j < size.toNat →
      0 ≤ base + (j : Int) * stride ∧ (base + (j : Int) * stride).toNat < w.length) :
    getQ (rrVar w [base] 1 size stride) base = popVar (lineVals w base stride size.toNat) ∧
    (∀ j : Nat, 1 ≤ j → j < size.toNat →
      getQ (rrVar w [base] 1 size stride) (base + (j : Int) * stride) =
        (getQ w (base + (j : Int) * stride) -
          meanQ (lineVals w base stride size.toNat)) ^ 2) := by
  have hn1 : 1 ≤ size.toNat := by omega
  have hb0 : 0 ≤ base ∧ base.toNat < w.length := by
    have := hb 0 (by omega)
    simpa using this
  have hbase0 : base + ((0 : Nat) : Int) * stride = base := by simp
  have hrv : rrVar w [base] 1 size stride =
      setQ (lineAccum (· + ·)
          (sqPass w base stride size.toNat (meanPass w base stride size.toNat / (size : ℚ)))
          base size stride) base
        (getQ (lineAccum (· + ·)
            (sqPass w base stride size.toNat (meanPass w base stride size.toNat / (size : ℚ)))
            base size stride) base / (size : ℚ)) := rfl
  have hcast : ((size : Int) : ℚ) = ((size.toNat : Nat) : ℚ) := by
    rw [← Int.toNat_of_nonneg (by omega : (0 : Int) ≤ size)]
    push_cast
    rfl
  have hmean : meanPass w base stride size.toNat / (size : ℚ) =
      meanQ (lineVals w base stride size.toNat) := by
    rw [meanPass_eq_sum, meanQ, lineVals_length, hcast]
  have hsq := sqPass_spec hs (meanPass w base stride size.toNat / (size : ℚ)) size.toNat w hb
  have hsqlen : (sqPass w base stride size.toNat
      (meanPass w base stride size.toNat / (size : ℚ))).length = w.length := hsq.1
  have hacc := lineAccum_spec (· + ·)
    (sqPass w base stride size.toNat (meanPass w base stride size.toNat / (size : ℚ)))
    base size stride hs hb0.1 (by rw [hsqlen]; exact hb0.2)
  constructor
  · rw [hrv, getQ_setQ_self _ hb0.1 (by rw [hacc.1, hsqlen]; exact hb0.2), hacc.2.1]
    dsimp only
    rw [foldl_add_eq_sum]
    have hsq0 : getQ (sqPass w base stride size.toNat
        (meanPass w base stride size.toNat / (size : ℚ))) base =
        (getQ w base - meanQ (lineVals w base stride size.toNat)) *
          (getQ w base - meanQ (lineVals w base stride size.toNat)) := by
      have := hsq.2.1 0 (by omega)
      rw [hbase0] at this
      rw [this, hmean]
    have hsqj : ∀ j : Nat, j < (size - 1).toNat →
        getQ (sqPass w base stride size.toNat
          (meanPass w base stride size.toNat / (size : ℚ)))
            (base + ((j : Int) + 1) * stride) =
          (getQ w (base + (((j + 1 : Nat) : Int)) * stride) -
            meanQ (lineVals w base stride size.toNat)) *
          (getQ w (base + (((j + 1 : Nat) : Int)) * stride) -
            meanQ (lineVals w base stride size.toNat)) := by
      intro j hj
      have hj' : j + 1 < size.toNat := by omega
      have := hsq.2.1 (j + 1) hj'
      have hc : ((j + 1 : Nat) : Int) = (j : Int) + 1 := by push_cast; rfl
      rw [hc] at this
      rw [this, hmean, hc]
    rw [hsq0]
    have hmapeq : (List.range (size - 1).toNat).map
        (fun (j : Nat) => getQ (sqPass w base stride size.toNat
          (meanPass w base stride size.toNat / (size : ℚ)))
            (base + ((j : Int) + 1) * stride)) =
        (List.range (size - 1).toNat).map
          (fun j => (getQ w (base + (((j + 1 : Nat) : Int)) * stride) -
            meanQ (lineVals w base stride size.toNat)) *
          (getQ w (base + (((j + 1 : Nat) : Int)) * stride) -
            meanQ (lineVals w base stride size.toNat))) :=
      List.map_congr_left fun j hj => hsqj j (List.mem_range.1 hj)
    rw [hmapeq]
    unfold popVar
    have hlmap : (lineVals w base stride size.toNat).map
        (fun x => (x - meanQ (lineVals w base stride size.toNat)) ^ 2) =
        (List.range size.toNat).map
          (fun (j : Nat) => (getQ w (base + (j : Int) * stride) -
            meanQ (lineVals w base stride size.toNat)) ^ 2) := by
      unfold lineVals
      rw [List.map_map]
      rfl
    rw [hlmap, lineVals_length, ← hcast]
    have hsplit : List.range size.toNat = 0 :: (List.range (size - 1).toNat).map Nat.succ := by
      have : size.toNat = (size - 1).toNat + 1 := by omega
      rw [this, List.range_succ_eq_map]
    rw [hsplit]
    simp only [List.map_cons, List.map_map, List.sum_cons, hbase0]
    have hfn : ((fun (j : Nat) => (getQ w (base + (j : Int) * stride) -
        meanQ (lineVals w base stride size.toNat)) ^ 2) ∘ Nat.succ) =
        fun (j : Nat) => (getQ w (base + (((j + 1 : Nat)) : Int) * stride) -
          meanQ (lineVals w base stride size.toNat)) *
          (getQ w (base + (((j + 1 : Nat)) : Int) * stride) -
            meanQ (lineVals w base stride size.toNat)) := by
      funext j
      simp only [Function.comp_apply, Nat.succ_eq_add_one]
      ring
    rw [hfn]
    ring
  · intro j hj1 hjn
    have hne1 : base + (j : Int) * stride ≠ base := by
      have := @off_ne_off base stride hs j 0 (Nat.one_le_iff_ne_zero.1 hj1)
      rw [hbase0] at this
      exact this
    rw [hrv, getQ_setQ_ne _ _ (Ne.symm hne1), hacc.2.2 _ hne1]
    have := hsq.2.1 j hjn
    rw [this, hmean]
    ring

set_option maxHeartbeats 1000000 in
/-- Claim C2: on every well-formed line of size ≥ 1 the Variance
operator works in two passes — every element of the line ends up
holding its squared deviation from the line's mean (except the base,
which is then overwritten), and the base offset receives the average of
those squared deviations, i.e. the population variance with divisor
`size`; a line of size 1 yields `0`; and reducing axis 1 of the
`[2,3]` example yields `(1+0+1)/3 = 2/3` for each row. -/
theorem c2_variance_population (cd : List Int → List Int → Nat → Bool)
    (hsrc : cd [2, 3] [3, 1] 6 = true) (hdst : cd [2, 1] [1, 1] 2 = true) :
    (∀ (w : List ℚ) (base stride size : Int), stride ≠ 0 → 1 ≤ size →
      (∀ j : Nat, j < size.toNat →
        0 ≤ base + (j : Int) * stride ∧ (base + (j : Int) * stride).toNat < w.length) →
      getQ (rrVar w [base] 1 size stride) base = popVar (lineVals w base stride size.toNat) ∧
      (∀ j : Nat, 1 ≤ j → j < size.toNat →
        getQ (rrVar w [base] 1 size stride) (base + (j : Int) * stride) =
          (getQ w (base + (j : Int) * stride) -
            meanQ (lineVals w base stride size.toNat)) ^ 2)) ∧
    (∀ (w : List ℚ) (base stride : Int), stride ≠ 0 → 0 ≤ base → base.toNat < w.length →
      getQ (rrVar w [base] 1 1 stride) base = 0) ∧
    ((rrOp cd (some .var) (some [1, 2, 3, 4, 5, 6]) (some [2, 3]) (some [3, 1])
        (some [0, 0]) (some [2, 1]) (some [1, 1]) (some [1])).dstV =
      some [2 / 3, 2 / 3] ∧
      (rrOp cd (some .var) (some [1, 2, 3, 4, 5, 6]) (some [2, 3]) (some [3, 1])
        (some [0, 0]) (some [2, 1]) (some [1, 1]) (some [1])).err = none) := by
  refine ⟨fun w base stride size h1 h2 h3 => rrVar_single_line w base stride size h1 h2 h3,
    ?_, ?_, ?_⟩
  · intro w base stride hs hb0 hblt
    have hbnds : ∀ j : Nat, j < (1 : Int).toNat →
        0 ≤ base + (j : Int) * stride ∧ (base + (j : Int) * stride).toNat < w.length := by
      intro j hj
      have hj0 : j = 0 := by omega
      subst hj0
      simpa using ⟨hb0, hblt⟩
    have hmain := (rrVar_single_line w base stride 1 hs le_rfl hbnds).1
    have hline : lineVals w base stride (1 : Int).toNat = [getQ w base] := by
      norm_num [lineVals, List.range_succ]
    rw [hmain, hline, popVar_singleton]
  · have ht : Int.tdiv 6 3 = 2 := by decide
    have hw : jintWrap 6 = 6 := by decide
    simp [rrOp, rrOpChecked, rrOpMain, validate1, validateAxes, hasDup, axisLoop, compute,
      reducePass, applyOp, rrVar, meanPass, sqPass, lineAccum, baseIndices, mappingIndices,
      getQ, setQ, getI, prodNat, ht, hw, hsrc, hdst, List.insertionSort, List.orderedInsert,
      List.range_succ, List.getD, List.set]
    norm_num
  · have ht : Int.tdiv 6 3 = 2 := by decide
    have hw : jintWrap 6 = 6 := by decide
    simp [rrOp, rrOpChecked, rrOpMain, validate1, validateAxes, hasDup, axisLoop, compute,
      reducePass, applyOp, rrVar, meanPass, sqPass, lineAccum, baseIndices, mappingIndices,
      getQ, setQ, getI, prodNat, ht, hw, hsrc, hdst, List.insertionSort, List.orderedInsert,
      List.range_succ, List.getD, List.set]

/-- Closed instances of `c2_variance_population`: the line `[1,2,3]`
(base 0, stride 1, size 3) gets population variance `2/3` at its base
offset and squared deviations elsewhere, and the `[2,3]` example's
axis-1 reduction produces `[2/3, 2/3]`. -/
theorem c2_variance_population_witness :
    (getQ (rrVar [1, 2, 3] [0] 1 3 1) 0 = popVar (lineVals [1, 2, 3] 0 1 (3 : Int).toNat) ∧
      (∀ j : Nat, 1 ≤ j → j < (3 : Int).toNat →
        getQ (rrVar [1, 2, 3] [0] 1 3 1) (0 + (j : Int) * 1) =
          (getQ [1, 2, 3] (0 + (j : Int) * 1) -
            meanQ (lineVals [1, 2, 3] 0 1 (3 : Int).toNat)) ^ 2)) ∧
    (rrOp acceptAll (some .var) (some [1, 2, 3, 4, 5, 6]) (some [2, 3]) (some [3, 1])
        (some [0, 0]) (some [2, 1]) (some [1, 1]) (some [1])).dstV = some [2 / 3, 2 / 3] :=
  ⟨(c2_variance_population acceptAll rfl rfl).1 [1, 2, 3] 0 1 3 (by decide) (by decide)
      (by decide),
    ((c2_variance_population acceptAll rfl rfl).2.2).1⟩

theorem contigStrides_length : ∀ d : List Int, (contigStrides d).length = d.length
  | [] => rfl
  | _ :: ds => by simp [contigStrides, contigStrides_length ds]

theorem range_mul_flatMap : ∀ a b : Nat,
    List.range (a * b) =
      (List.range a).flatMap fun c => (List.range b).map fun i => c * b + i
  | 0, b => by simp
  | a + 1, b => by
    rw [Nat.succ_mul, List.range_add, List.range_succ, List.flatMap_append,
      ← range_mul_flatMap a b]
    simp

theorem mappingIndices_contig : ∀ d : List Int,
    mappingIndices d (contigStrides d) = (List.range (prodNat d)).map fun (i : Nat) => (i : Int)
  | [] => by decide
  | d :: ds => by
    have hinner : ∀ c : Nat,
        ((List.range (prodNat ds)).map fun (i : Nat) => (i : Int)).map
            (fun t => (c : Int) * ((prodNat ds : Nat) : Int) + t) =
          ((List.range (prodNat ds)).map fun i => c * prodNat ds + i).map
            fun (i : Nat) => (i : Int) := by
      intro c
      rw [List.map_map, List.map_map]
      apply List.map_congr_left
      intro i _
      simp only [Function.comp_apply]
      push_cast
      ring
    show (List.range d.toNat).flatMap
        (fun (c : Nat) => (mappingIndices ds (contigStrides ds)).map
          fun t => (c : Int) * ((prodNat ds : Nat) : Int) + t) = _
    rw [mappingIndices_contig ds,
      show prodNat (d :: ds) = d.toNat * prodNat ds from by simp [prodNat],
      range_mul_flatMap, List.map_flatMap]
    congr 1
    funext c
    exact hinner c

theorem castRange_getD (n i : Nat) (h : i < n) :
    (((List.range n).map fun (k : Nat) => (k : Int)).getD i 0) = (i : Int) := by
  rw [List.getD_eq_getElem?_getD, List.getElem?_map, List.getElem?_range h]
  rfl

theorem contigScatter_get (v : Nat → ℚ) :
    ∀ (n : Nat) (B : List ℚ),
      ((List.range n).foldl (fun out i => setQ out ((i : Nat) : Int) (v i)) B).length
          = B.length ∧
      ∀ i : Nat, i < n → i < B.length →
        getQ ((List.range n).foldl (fun out i => setQ out ((i : Nat) : Int) (v i)) B)
          ((i : Nat) : Int) = v i
  | 0, B => ⟨rfl, fun i hi => absurd hi (Nat.not_lt_zero i)⟩
  | n + 1, B => by
    have ih := contigScatter_get v n B
    have hstep : (List.range (n + 1)).foldl (fun out i => setQ out ((i : Nat) : Int) (v i)) B =
        setQ ((List.range n).foldl (fun out i => setQ out ((i : Nat) : Int) (v i)) B)
          ((n : Nat) : Int) (v n) := by
      rw [List.range_succ, List.foldl_append]
      rfl
    refine ⟨by rw [hstep, setQ_length, ih.1], ?_⟩
    intro i hi hiB
    rcases Nat.lt_succ_iff_lt_or_eq.1 hi with hi' | hi'
    · have hne : ((n : Nat) : Int) ≠ ((i : Nat) : Int) := by
        exact_mod_cast Nat.ne_of_gt hi'
      rw [hstep, getQ_setQ_ne _ _ hne, ih.2 i hi' hiB]
    · subst hi'
      rw [hstep, getQ_setQ_self _ (by positivity) (by rw [ih.1]; simpa using hiB)]

theorem scatter_coordCopy (W dstV : List ℚ) (dstD dstS wIdx : List Int)
    (hp : prodNat dstD = dstV.length) :
    (List.range dstV.length).foldl
        (fun out i => setQ out ((mappingIndices dstD dstS).getD i 0)
          (getQ W (wIdx.getD i 0))) dstV =
      coordCopy dstV dstD dstS
        ((List.range dstV.length).foldl
          (fun out i => setQ out ((mappingIndices dstD (contigStrides dstD)).getD i 0)
            (getQ W (wIdx.getD i 0))) dstV) := by
  have hidx : ∀ i : Nat, i < dstV.length →
      (mappingIndices dstD (contigStrides dstD)).getD i 0 = (i : Int) := by
    intro i hi
    rw [mappingIndices_contig, castRange_getD _ _ (by rw [hp]; exact hi)]
  have hC : (List.range dstV.length).foldl
      (fun out i => setQ out ((mappingIndices dstD (contigStrides dstD)).getD i 0)
        (getQ W (wIdx.getD i 0))) dstV =
      (List.range dstV.length).foldl
        (fun out i => setQ out ((i : Nat) : Int) (getQ W (wIdx.getD i 0))) dstV :=
    List.foldl_ext _ _ dstV fun out i hi => by rw [hidx i (List.mem_range.1 hi)]
  rw [hC]
  have hcg := contigScatter_get (fun i => getQ W (wIdx.getD i 0)) dstV.length dstV
  unfold coordCopy
  refine (List.foldl_ext _ _ dstV fun out i hi => ?_).symm
  rw [hidx i (List.mem_range.1 hi),
    hcg.2 i (List.mem_range.1 hi) (List.mem_range.1 hi)]

theorem compute_coordCopy (op : RrOpKind) (srcV : List ℚ) (srcD srcS : List Int)
    (dstV : List ℚ) (dstD dstS : List Int) (sorted : List Int)
    (hp : prodNat dstD = dstV.length) :
    compute op srcV srcD srcS dstV dstD dstS sorted =
      coordCopy dstV dstD dstS
        (compute op srcV srcD srcS dstV dstD (contigStrides dstD) sorted) :=
  scatter_coordCopy (sorted.foldl (reducePass op srcD srcS) (srcV, srcD, (srcV.length : Int))).1
    dstV dstD dstS (mappingIndices dstD srcS) hp

/-- Claim C4: for a valid request that reaches the final scatter, the
destination produced through arbitrary destination strides equals the
result of first reducing into a canonical contiguous destination and
then performing an explicit coordinate-wise copy into the strided
layout — both scatter enumerations run over the destination's logical
shape in the same canonical order, so each reduced scalar lands at the
coordinate-correct offset. -/
theorem c4_scatter_matches_contiguous (cd : List Int → List Int → Nat → Bool)
    (op : RrOpKind) (srcV : List ℚ) (srcD srcS : List Int) (dstV : List ℚ)
    (dstD dstS : List Int) (sel : List Int)
    (hnd : srcD.length = srcS.length ∧ srcD.length = dstD.length ∧ srcD.length = dstS.length)
    (hcd1 : cd srcD srcS srcV.length = true) (hcd2 : cd dstD dstS dstV.length = true)
    (hcd3 : cd dstD (contigStrides dstD) dstV.length = true)
    (hax : validateAxes (srcD.length : Int) srcD dstD dstV.length srcV.length
      (sel.insertionSort (· ≤ ·)) = .ok ())
    (hne : srcV ≠ []) (hp : prodNat dstD = dstV.length) :
    (rrOp cd (some op) (some srcV) (some srcD) (some srcS) (some dstV) (some dstD)
        (some dstS) (some sel)).dstV =
      Option.map (fun c => coordCopy dstV dstD dstS c)
        ((rrOp cd (some op) (some srcV) (some srcD) (some srcS) (some dstV) (some dstD)
          (some (contigStrides dstD)) (some sel)).dstV) := by
  rw [rrOp_all_some_reduce cd op srcV srcD srcS dstV dstD dstS sel hnd hcd1 hcd2,
    rrOp_all_some_reduce cd op srcV srcD srcS dstV dstD (contigStrides dstD) sel
      ⟨hnd.1, hnd.2.1, by rw [contigStrides_length]; exact hnd.2.1⟩ hcd1 hcd3]
  simp only [rrOpMain, hax]
  have h0 : ¬srcV.length = 0 := fun h => hne (List.length_eq_zero.1 h)
  simp only [if_neg h0, Option.map_some']
  exact congrArg some
    (compute_coordCopy op srcV srcD srcS dstV dstD dstS (sel.insertionSort (· ≤ ·)) hp)

/-- Closed instance of `c4_scatter_matches_contiguous`: reducing axis 0
of the `[2,3]` example into a destination with non-canonical strides
`[7,1]` matches the contiguous reduction followed by a coordinate-wise
copy. -/
theorem c4_scatter_matches_contiguous_witness :
    (rrOp acceptAll (some .sum) (some [1, 2, 3, 4, 5, 6]) (some [2, 3]) (some [3, 1])
        (some [0, 0, 0]) (some [1, 3]) (some [7, 1]) (some [0])).dstV =
      Option.map (fun c => coordCopy [0, 0, 0] [1, 3] [7, 1] c)
        ((rrOp acceptAll (some .sum) (some [1, 2, 3, 4, 5, 6]) (some [2, 3]) (some [3, 1])
          (some [0, 0, 0]) (some [1, 3]) (some (contigStrides [1, 3])) (some [0])).dstV) :=
  c4_scatter_matches_contiguous acceptAll .sum [1, 2, 3, 4, 5, 6] [2, 3] [3, 1] [0, 0, 0]
    [1, 3] [7, 1] [0] (by decide) rfl rfl rfl (by rfl) (by decide) (by decide)

end DimensionOps
